import Mathlib

/-!
Verification of the Braintrust data downloader (`src/main.py`).

The program is embedded shallowly:

* JSON values (the shape of API payloads and event fields) are the
  inductive `JVal`; a Python `dict` is an association list
  `List (String × JVal)` in insertion order, mirroring Python's ordered
  dictionaries (keys are unique in every dict Python can build).
* `normalize_event` mutates its argument in place and returns it; since the
  returned dict is the very object that was passed, the returned value is at
  once the function's result and the post-state of the argument, so a single
  pure function models both.
* The network is an oracle: pagination loops consume the list of responses
  the API would return for the successive requests, and record the requests
  they would have issued, so that the request parameters (`starting_after`,
  `cursor`) are part of the observable behaviour.
* Filesystem effects of `write_to_csv` (directories ensured, file written)
  are returned as data; whether the underlying I/O succeeds is an
  environment parameter of the orchestrator.
-/

/-- A JSON value, as produced by `response.json()`: scalars, objects
(Python dicts) and arrays (Python lists).  Numbers are modelled as
integers; the claims under verification do not depend on float behaviour. -/
inductive JVal where
  | null : JVal
  | bool : Bool → JVal
  | num : Int → JVal
  | str : String → JVal
  | obj : List (String × JVal) → JVal
  | arr : List JVal → JVal

/-- An event (or any Python dict) as an ordered association list. -/
abbrev Event := List (String × JVal)

/-- String escaping as performed by `json.dumps` on the characters the
claims exercise: backslash, double quote, and the common control
characters. -/
def escapeJson (s : String) : String :=
  String.join (s.data.map fun c =>
    if c = '\\' then "\\\\"
    else if c = '"' then "\\\""
    else if c = '\n' then "\\n"
    else if c = '\t' then "\\t"
    else if c = '\r' then "\\r"
    else String.singleton c)

mutual

/-- `json.dumps(value)` with its default separators `", "` and `": "`:
the deterministic serialization `normalize_event` applies to nested
dicts and lists (`src/main.py:144`). -/
def dumps : JVal → String
  | .null => "null"
  | .bool true => "true"
  | .bool false => "false"
  | .num n => toString n
  | .str s => "\"" ++ escapeJson s ++ "\""
  | .obj fields => "\x7b" ++ dumpsFields fields ++ "\x7d"
  | .arr elems => "[" ++ dumpsElems elems ++ "]"

/-- The comma-joined `"key": value` entries of a serialized dict. -/
def dumpsFields : List (String × JVal) → String
  | [] => ""
  | [(k, v)] => "\"" ++ escapeJson k ++ "\": " ++ dumps v
  | (k, v) :: p :: rest =>
      "\"" ++ escapeJson k ++ "\": " ++ dumps v ++ ", " ++ dumpsFields (p :: rest)

/-- The comma-joined elements of a serialized list. -/
def dumpsElems : List JVal → String
  | [] => ""
  | [v] => dumps v
  | v :: w :: rest => dumps v ++ ", " ++ dumpsElems (w :: rest)

end

/-- `true` on scalars (`None`, `bool`, numbers, `str`); `false` exactly on
the values `isinstance(value, (dict, list))` accepts in `src/main.py`. -/
def isScalar : JVal → Bool
  | .obj _ => false
  | .arr _ => false
  | _ => true

/-- `event.get(k)`: the value at the first (in Python, only) occurrence of
key `k`, or `None` — here `Option.none` — when the key is absent. -/
def getVal (e : Event) (k : String) : Option JVal :=
  (e.find? fun p => p.1 == k).map fun p => p.2

/-- `list(d.keys())` in insertion order. -/
def keysOf (e : Event) : List String := e.map fun p => p.1

/-- `d[k] = v` on a Python dict: replace the value at `k` in place if the
key exists (keeping its position), otherwise append the new key at the
end of the insertion order. -/
def setKey : Event → String → JVal → Event
  | [], k, v => [(k, v)]
  | (k', v') :: rest, k, v =>
      if k' == k then (k, v) :: rest else (k', v') :: setKey rest k v

/-- `d.pop(k)`'s effect on the dict: remove the entry at `k` (Python dicts
hold at most one), keeping the order of the remaining entries. -/
def removeKey : Event → String → Event
  | [], _ => []
  | (k', v') :: rest, k =>
      if k' == k then rest else (k', v') :: removeKey rest k

/-- `input_data.get(k)` as used on `src/main.py:137-140`: the sub-field at
`k`, or `None` (an explicit JSON null) when the sub-field is missing. -/
def getNull (m : Event) (k : String) : JVal :=
  match getVal m k with
  | some v => v
  | none => JVal.null

/-- `isinstance(event.get("input"), dict)` (`src/main.py:135`). -/
def inputIsMapping (e : Event) : Bool :=
  match getVal e "input" with
  | some (JVal.obj _) => true
  | _ => false

/-- Step 1 of `normalize_event` (`src/main.py:135-140`): when the `input`
field holds a dict, pop it and assign its `input`, `output`, `expected`
and `metadata` sub-fields (missing ones as `None`) to the corresponding
top-level keys, in that order of assignments. -/
def promote (e : Event) : Event :=
  match getVal e "input" with
  | some (JVal.obj m) =>
      let e1 := removeKey e "input"
      let e2 := setKey e1 "input" (getNull m "input")
      let e3 := setKey e2 "output" (getNull m "output")
      let e4 := setKey e3 "expected" (getNull m "expected")
      setKey e4 "metadata" (getNull m "metadata")
  | _ => e

/-- The per-value effect of step 2 of `normalize_event`
(`src/main.py:142-144`): a dict or list becomes its `json.dumps` string;
any other value is left as it is. -/
def serializeVal (v : JVal) : JVal :=
  if isScalar v then v else JVal.str (dumps v)

/-- Step 2 of `normalize_event`: the in-place loop
`for key, value in event.items(): ...` rewrites each value, leaving keys
and their order untouched. -/
def serializeFields (e : Event) : Event :=
  e.map fun p => (p.1, serializeVal p.2)

/-- `normalize_event(event)` (`src/main.py:119-145`).  The Python function
mutates `event` in place and returns it, so this single pure function is
both the returned record and the post-state of the caller's dict. -/
def normalize_event (e : Event) : Event :=
  serializeFields (promote e)

/-- Lexicographic comparison of character lists by code point: the order
Python's `sorted` uses on strings. -/
def lexLe : List Char → List Char → Bool
  | [], _ => true
  | _ :: _, [] => false
  | a :: as, b :: bs => if a = b then lexLe as bs else decide (a < b)

/-- `a <= b` on Python strings (code-point lexicographic). -/
def strLeB (a b : String) : Bool := lexLe a.data b.data

/-- `sorted(strings)`: Python's stable sort under code-point order. -/
def sortedStrings (l : List String) : List String :=
  List.insertionSort (fun a b => strLeB a b = true) l

/-- How `csv.DictWriter` renders one present value into a cell: `None`
becomes the empty cell, booleans print as Python's `True`/`False`, numbers
and strings print themselves.  Raw containers cannot occur in a normalized
record (the flat-values invariant proved below); for totality they render
through their serialization. -/
def cellOfVal : JVal → String
  | .null => ""
  | .bool true => "True"
  | .bool false => "False"
  | .num n => toString n
  | .str s => s
  | .obj fields => dumps (.obj fields)
  | .arr elems => dumps (.arr elems)

/-- One cell of a row: `rowdict.get(key, restval)` inside
`csv.DictWriter.writerow` — a key the record lacks renders as the empty
cell (`restval` is `None`), not as an omitted column. -/
def renderCell (e : Event) (k : String) : String :=
  match getVal e k with
  | none => ""
  | some v => cellOfVal v

/-- `sorted(fieldnames)` where `fieldnames` is the set-union of the keys of
all records (`src/main.py:179-181`, `184`). -/
def csvFieldnames (records : List Event) : List String :=
  sortedStrings (records.flatMap keysOf).dedup

/-- The header and rows `csv.DictWriter` emits for a batch of events:
the events are normalized (`src/main.py:178`), the header is the sorted
union of their keys, and every record is rendered against the full
header. -/
def csvTable (events : List Event) : List String × List (List String) :=
  let normalized := events.map normalize_event
  let header := csvFieldnames normalized
  (header, normalized.map fun e => header.map (renderCell e))

/-- The observable filesystem effect of one `write_to_csv` call. -/
structure WriteEffect where
  dirsEnsured : List String
  warnedNoEvents : Bool
  file : Option (String × (List String × List (List String)))

/-- `write_to_csv(events, directory, object_id)` (`src/main.py:148-193`),
on the path where the I/O itself succeeds (an `IOError` outcome is an
environment parameter of the orchestrator, below).  Note the two
`os.makedirs(..., exist_ok=True)` calls run before the empty-events
check, so even an empty batch ensures the output directories exist. -/
def write_to_csv (events : List Event) (directory objectId : String) : WriteEffect :=
  { dirsEnsured := ["braintrust_data", "braintrust_data/" ++ directory]
    warnedNoEvents := events.isEmpty
    file :=
      if events.isEmpty then none
      else some ("braintrust_data/" ++ directory ++ "/" ++ objectId ++ ".csv",
                 csvTable events) }

/-- An object returned by the listing endpoint.  The code reads only its
`id` (`items[-1]["id"]`, `obj['id']`); every other attribute is passed
through uninterpreted and is irrelevant to the claims. -/
structure BTObject where
  id : String
deriving DecidableEq

/-- The query parameters of one `GET /v1/{endpoint}` listing request that
the pagination loop varies: `limit` and the optional `starting_after`
(`none` means the key is absent from `params`).  The project filter is set
once before the loop and never modified, so it is constant across the
requests of a run. -/
structure ObjListReq where
  limit : Nat
  startingAfter : Option String
deriving DecidableEq

/-- `items[-1]["id"]` on a page.  The loop only evaluates this on a page
with `len(items) >= limit` after requesting `limit >= 1` items, so the
page is never empty there; the default is irrelevant under that guard. -/
def lastId (page : List BTObject) : String :=
  match page.getLast? with
  | some o => o.id
  | none => ""

/-- The `while True` pagination loop of `fetch_object_list`
(`src/main.py:49-72`), run against the successive pages the API returns.
`sa` is the current `starting_after` value.  It returns the requests the
loop issues, the accumulated `all_objects`, and whether the loop broke out
(rather than exhausting the supplied responses, which models an API that
still had pages to serve). -/
def fetch_object_list_loop (limit : Nat) (sa : Option String) :
    List (List BTObject) → List ObjListReq × List BTObject × Bool
  | [] => ([⟨limit, sa⟩], [], false)
  | page :: rest =>
      if page.length < limit then ([⟨limit, sa⟩], page, true)
      else
        let (reqs, items, stopped) :=
          fetch_object_list_loop limit (some (lastId page)) rest
        (⟨limit, sa⟩ :: reqs, page ++ items, stopped)

/-- `fetch_object_list(endpoint, limit, starting_after, ...)`
(`src/main.py:14-72`) as a function of the pages the API serves: the first
request carries the caller's `starting_after` (the orchestrator passes
none). -/
def fetch_object_list (limit : Nat) (startingAfter : Option String)
    (pages : List (List BTObject)) : List ObjListReq × List BTObject × Bool :=
  fetch_object_list_loop limit startingAfter pages

/-- One response of `GET /v1/{endpoint}/{object_id}/fetch`: its `events`
and its `cursor` field (`none` when the key is absent). -/
structure EventsResp where
  events : List Event
  cursor : Option String

/-- The query parameters of one event-fetch request the loop varies:
`limit` and the optional `cursor`. -/
structure EventsReq where
  limit : Nat
  cursor : Option String
deriving DecidableEq

/-- Python truthiness of the cursor: `if not cursor: break` fires when the
cursor is `None` or the empty string. -/
def cursorTruthy : Option String → Bool
  | none => false
  | some s => !(s == "")

/-- The `while True` loop of `fetch_events` (`src/main.py:94-116`) against
the successive responses the API returns; `cur` is the current cursor
(`None` before the first response).  Returns the issued requests, the
accumulated `object_events`, and whether the loop broke out. -/
def fetch_events_loop (limit : Nat) (cur : Option String) :
    List EventsResp → List EventsReq × List Event × Bool
  | [] => ([⟨limit, cur⟩], [], false)
  | r :: rest =>
      if cursorTruthy r.cursor then
        let (reqs, evs, stopped) := fetch_events_loop limit r.cursor rest
        (⟨limit, cur⟩ :: reqs, r.events ++ evs, stopped)
      else
        ([⟨limit, cur⟩], r.events, true)

/-- `fetch_events(object_id, endpoint, limit, ...)` (`src/main.py:75-116`)
as a function of the responses the API serves; the first request carries
no cursor. -/
def fetch_events (limit : Nat) (responses : List EventsResp) :
    List EventsReq × List Event × Bool :=
  fetch_events_loop limit none responses

/-- An exception (transport error, `IOError`, ...) carrying its `str(e)`. -/
structure Err where
  msg : String
deriving DecidableEq

/-- The log lines `download_data` emits, one constructor per `logger`
call site, carrying exactly the data interpolated into the message. -/
inductive LogMsg where
  /-- `src/main.py:229`: `Error processing {endpoint}/{obj['id']}: {e}`. -/
  | errorProcessing (endpoint objectId errMsg : String)
  /-- `src/main.py:234`: `Processing complete for {endpoint}:`. -/
  | processingComplete (endpoint : String)
  /-- `src/main.py:235`: `Total objects processed: {len(objects_list)}`. -/
  | totalProcessed (n : Nat)
  /-- `src/main.py:236`: `Objects with no events: {len(...)}`. -/
  | noEventsCount (n : Nat)
  /-- `src/main.py:238`: `IDs of objects with no events: {...}`. -/
  | noEventsIds (ids : List String)
  /-- `src/main.py:241`: `Error downloading data for {endpoint}: {e}`. -/
  | errorDownloading (endpoint errMsg : String)
  /-- `src/main.py:242`: `Failed to download data for {endpoint} objects:
  {failed_objects}`. -/
  | failedObjectsOnFatal (endpoint : String) (ids : List String)
  /-- `src/main.py:245`: `Failed to download data for endpoints:
  {failed_endpoints}`. -/
  | failedEndpointsSummary (endpoints : List String)
deriving DecidableEq

/-- The accumulators of `download_data` (`src/main.py:217-219`), plus the
files successfully written so far. -/
structure RunState where
  failedEndpoints : List String
  failedObjects : List String
  objectsWithoutEvents : List String
  writes : List (String × (List String × List (List String)))

/-- The accumulators as initialized on `src/main.py:217-219`. -/
def initRunState : RunState :=
  { failedEndpoints := [], failedObjects := [], objectsWithoutEvents := []
    writes := [] }

/-- The environment one `download_data` run observes: the outcome of the
initial `fetch_object_list` call (an exception or the listed objects), the
outcome of `fetch_events` per object id, and whether the filesystem lets
`write_to_csv` persist that object's file (`.error` is the `IOError` the
per-object handler catches). -/
structure Env where
  listing : Except Err (List BTObject)
  fetch : String → Except Err (List Event)
  writeFs : String → Except Err Unit

/-- The outcome of one `download_data` call: whether it returned normally
(`false` means the listing failure was re-raised), the final accumulators,
and the log lines in order. -/
structure RunResult where
  ok : Bool
  state : RunState
  logs : List LogMsg

/-- One iteration of the `for obj in objects_list` loop
(`src/main.py:221-232`): fetch the object's events; an empty result is
recorded in `objects_without_events` and skips the write; otherwise write
the CSV.  Any exception from the fetch or the write is caught, logged with
the object's id, recorded in `failed_endpoints`/`failed_objects`, and the
loop continues. -/
def processObject (env : Env) (endpoint : String)
    (acc : RunState × List LogMsg) (obj : BTObject) : RunState × List LogMsg :=
  let (st, logs) := acc
  match env.fetch obj.id with
  | .error e =>
      ({ st with failedEndpoints := st.failedEndpoints ++ [endpoint]
                 failedObjects := st.failedObjects ++ [obj.id] },
       logs ++ [.errorProcessing endpoint obj.id e.msg])
  | .ok events =>
      if events.isEmpty then
        ({ st with objectsWithoutEvents := st.objectsWithoutEvents ++ [obj.id] },
         logs)
      else
        match env.writeFs obj.id with
        | .error e =>
            ({ st with failedEndpoints := st.failedEndpoints ++ [endpoint]
                       failedObjects := st.failedObjects ++ [obj.id] },
             logs ++ [.errorProcessing endpoint obj.id e.msg])
        | .ok _ =>
            ({ st with writes :=
                st.writes ++ (write_to_csv events endpoint obj.id).file.toList },
             logs)

/-- The end-of-run lines `download_data` logs after the loop
(`src/main.py:234-238` and, outside the `try`, `244-245`). -/
def runSummaryLogs (endpoint : String) (total : Nat) (st : RunState) :
    List LogMsg :=
  [.processingComplete endpoint, .totalProcessed total,
   .noEventsCount st.objectsWithoutEvents.length]
  ++ (if st.objectsWithoutEvents.isEmpty then []
      else [.noEventsIds st.objectsWithoutEvents])
  ++ (if st.failedEndpoints.isEmpty then []
      else [.failedEndpointsSummary st.failedEndpoints])

/-- `download_data(endpoint, ...)` (`src/main.py:195-245`).  A listing
failure reaches the outer handler, is logged (with the still-empty
`failed_objects`) and re-raised; otherwise every object is processed in
order and the run returns normally, whatever the per-object outcomes. -/
def download_data (env : Env) (endpoint : String) : RunResult :=
  match env.listing with
  | .error e =>
      { ok := false, state := initRunState
        logs := [.errorDownloading endpoint e.msg,
                 .failedObjectsOnFatal endpoint []] }
  | .ok objs =>
      let acc := objs.foldl (processObject env endpoint) (initRunState, [])
      { ok := true, state := acc.1
        logs := acc.2 ++ runSummaryLogs endpoint objs.length acc.1 }

/-- The inner mapping of the spec's promotion test event. -/
def sampleInner : Event :=
  [("input", JVal.str "a"), ("output", JVal.str "b"),
   ("expected", JVal.str "c"), ("metadata", JVal.obj [("k", JVal.num 1)])]

/-- The spec's promotion test event: a single `input` field holding a
mapping with all four promotable sub-fields. -/
def sampleNested : Event := [("input", JVal.obj sampleInner)]

/-- A two-field event mixing a scalar and a nested list. -/
def sampleMixed : Event := [("a", JVal.num 1), ("b", JVal.arr [])]

/-- An event whose top-level values are all scalars. -/
def sampleScalar : Event := [("id", JVal.str "x"), ("n", JVal.num 3)]

/-- An event with a scalar value and no `input` field. -/
def sampleNoInput : Event := [("x", JVal.num 1)]

/-- The spec's header-union test batch: records `[{"a": 1}, {"b": 2}]`. -/
def sampleRecords : List Event := [[("a", JVal.num 1)], [("b", JVal.num 2)]]

/-- An environment whose listing succeeds with objects `X`, `Y`, `Z`:
`X`'s event fetch raises, `Y` has one event, `Z` has none, and the
filesystem accepts every write. -/
def envMixed : Env :=
  { listing := Except.ok [⟨"X"⟩, ⟨"Y"⟩, ⟨"Z"⟩]
    fetch := fun oid =>
      if oid == "X" then Except.error ⟨"fetch failed"⟩
      else if oid == "Z" then Except.ok []
      else Except.ok [[("id", JVal.str "e1")]]
    writeFs := fun _ => Except.ok () }

/-- An environment whose initial listing raises a transport error. -/
def envListingFails : Env :=
  { listing := Except.error ⟨"boom"⟩
    fetch := fun _ => Except.ok []
    writeFs := fun _ => Except.ok () }

/-- An environment with a single object `objX` whose event fetch raises. -/
def envFetchFails : Env :=
  { listing := Except.ok [⟨"objX"⟩]
    fetch := fun _ => Except.error ⟨"boom"⟩
    writeFs := fun _ => Except.ok () }

/-- An environment with a single object `e2` that has zero events. -/
def envNoEvents : Env :=
  { listing := Except.ok [⟨"e2"⟩]
    fetch := fun _ => Except.ok []
    writeFs := fun _ => Except.ok () }

/-- C2: on a run where the API serves some number of pages of exactly
`limit` items followed by a page of fewer than `limit` items (possibly
empty), `fetch_object_list` issues one request per served page, the first
carrying the caller's `starting_after` and each later one carrying the id
of the last item of the previous page; it stops exactly at the short page
(the pages an API could still serve are never requested), and returns the
concatenation of all served pages in order, nothing duplicated or
dropped. -/
theorem fetch_object_list_pagination (limit : Nat) (sa0 : Option String)
    (full : List (List BTObject)) (lastPage : List BTObject)
    (rest : List (List BTObject))
    (hfull : ∀ p ∈ full, p.length = limit)
    (hshort : lastPage.length < limit) :
    fetch_object_list limit sa0 (full ++ lastPage :: rest) =
      ((sa0 :: full.map fun p => some (lastId p)).map fun sa => ⟨limit, sa⟩,
       full.flatten ++ lastPage, true) := by
  induction full generalizing sa0 with
  | nil =>
      simp [fetch_object_list, fetch_object_list_loop, hshort]
  | cons p ps ih =>
      have hp : p.length = limit := hfull p (by simp)
      have hnot : ¬ p.length < limit := by omega
      have ihp := ih (some (lastId p)) fun q hq => hfull q (by simp [hq])
      simp only [fetch_object_list] at ihp ⊢
      simp [fetch_object_list_loop, hnot, ihp]

/-- Witness for C2 at two concrete runs: a full page of two followed by a
short page, and an empty first page (an empty listing terminates without
error). -/
theorem fetch_object_list_pagination_witness :
    ((∀ p ∈ [[BTObject.mk "a1", BTObject.mk "a2"]], p.length = 2) ∧
      [BTObject.mk "a3"].length < 2 ∧
      fetch_object_list 2 none
          ([[BTObject.mk "a1", BTObject.mk "a2"]] ++ [BTObject.mk "a3"] :: []) =
        ([ObjListReq.mk 2 none, ObjListReq.mk 2 (some "a2")],
         [BTObject.mk "a1", BTObject.mk "a2", BTObject.mk "a3"], true)) ∧
    ((([] : List BTObject).length < 2) ∧
      fetch_object_list 2 none ([] ++ [] :: []) =
        ([ObjListReq.mk 2 none], [], true)) :=
  ⟨⟨by decide, by decide,
    (fetch_object_list_pagination 2 none [[⟨"a1"⟩, ⟨"a2"⟩]] [⟨"a3"⟩] []
      (by decide) (by decide)).trans (by decide)⟩,
   ⟨by decide,
    (fetch_object_list_pagination 2 none [] [] [] (by decide)
      (by decide)).trans (by decide)⟩⟩

/-- The event-fetch loop on an arbitrary current cursor: helper for the
C3 theorem below. -/
theorem fetch_events_loop_spec (limit : Nat) (cur : Option String)
    (full : List EventsResp) (lastResp : EventsResp) (rest : List EventsResp)
    (hfull : ∀ r ∈ full, cursorTruthy r.cursor = true)
    (hlast : cursorTruthy lastResp.cursor = false) :
    fetch_events_loop limit cur (full ++ lastResp :: rest) =
      ((cur :: full.map fun r => r.cursor).map fun c => ⟨limit, c⟩,
       (full.map fun r => r.events).flatten ++ lastResp.events, true) := by
  induction full generalizing cur with
  | nil =>
      simp [fetch_events_loop, hlast]
  | cons r rs ih =>
      have hr : cursorTruthy r.cursor = true := hfull r (by simp)
      have ihr := ih r.cursor fun q hq => hfull q (by simp [hq])
      simp [fetch_events_loop, hr, ihr]

/-- C3: on a run where the API serves responses whose cursors are truthy
up to a final response with an absent or empty cursor, `fetch_events`
issues one request per response, the first without a cursor and each later
one carrying the cursor of the previous response; it stops exactly at the
response with the empty cursor — whatever that page's size — and returns
the concatenation of all served event pages in order. -/
theorem fetch_events_pagination (limit : Nat)
    (full : List EventsResp) (lastResp : EventsResp) (rest : List EventsResp)
    (hfull : ∀ r ∈ full, cursorTruthy r.cursor = true)
    (hlast : cursorTruthy lastResp.cursor = false) :
    fetch_events limit (full ++ lastResp :: rest) =
      ((none :: full.map fun r => r.cursor).map fun c => ⟨limit, c⟩,
       (full.map fun r => r.events).flatten ++ lastResp.events, true) :=
  fetch_events_loop_spec limit none full lastResp rest hfull hlast

/-- Witness for C3 at two concrete runs: a truthy-cursor response followed
by a full-size final response whose cursor is the empty string, and a
single zero-event response with no cursor (zero events terminate without
error, returning the empty sequence). -/
theorem fetch_events_pagination_witness :
    ((∀ r ∈ [EventsResp.mk [[], []] (some "cur1")],
        cursorTruthy r.cursor = true) ∧
      cursorTruthy (EventsResp.mk [[], []] (some "")).cursor = false ∧
      fetch_events 2 ([EventsResp.mk [[], []] (some "cur1")] ++
          EventsResp.mk [[], []] (some "") :: []) =
        ((none :: [EventsResp.mk [[], []] (some "cur1")].map fun r => r.cursor).map
          (fun c => ⟨2, c⟩),
         ([EventsResp.mk [[], []] (some "cur1")].map fun r => r.events).flatten ++
           (EventsResp.mk [[], []] (some "")).events, true)) ∧
    (cursorTruthy (EventsResp.mk [] none).cursor = false ∧
      fetch_events 2 ([] ++ EventsResp.mk [] none :: []) =
        ((none :: ([] : List EventsResp).map fun r => r.cursor).map fun c => ⟨2, c⟩,
         (([] : List EventsResp).map fun r => r.events).flatten ++
           (EventsResp.mk [] none).events, true)) :=
  ⟨⟨by decide, by decide,
    fetch_events_pagination 2 [⟨[[], []], some "cur1"⟩] ⟨[[], []], some ""⟩ []
      (by decide) (by decide)⟩,
   ⟨by decide,
    fetch_events_pagination 2 [] ⟨[], none⟩ [] (by decide) (by decide)⟩⟩

/-- Looking a key up behind a cons: Python's first-match lookup. -/
theorem getVal_cons (p : String × JVal) (e : Event) (k : String) :
    getVal (p :: e) k = if p.1 == k then some p.2 else getVal e k := by
  rcases h : p.1 == k with _ | _ <;> simp [getVal, List.find?_cons, h]

/-- After `d[k] = v`, looking up `k` yields `v`. -/
theorem getVal_setKey_self (e : Event) (k : String) (v : JVal) :
    getVal (setKey e k v) k = some v := by
  induction e with
  | nil => simp [setKey, getVal_cons]
  | cons p rest ih =>
      rcases hk : p.1 == k with _ | _
      · simpa [setKey, hk, getVal_cons] using ih
      · simp [setKey, hk, getVal_cons]

/-- `d[k] = v` leaves every other key's value unchanged. -/
theorem getVal_setKey_ne (e : Event) (k k' : String) (h : (k' == k) = false)
    (v : JVal) : getVal (setKey e k v) k' = getVal e k' := by
  have hkk : (k == k') = false := by
    rcases hb : k == k' with _ | _
    · rfl
    · exact absurd (beq_iff_eq.mp hb).symm (by simpa using h)
  induction e with
  | nil => simp [setKey, getVal_cons, getVal, hkk]
  | cons p rest ih =>
      rcases hk : p.1 == k with _ | _
      · simp [setKey, hk, getVal_cons, ih]
      · have hp : p.1 = k := beq_iff_eq.mp hk
        have hp' : (p.1 == k') = false := by rw [hp]; exact hkk
        simp [setKey, hk, getVal_cons, hp', hkk]

/-- The serialization pass rewrites each key's value through
`serializeVal` and touches nothing else. -/
theorem getVal_serializeFields (e : Event) (k : String) :
    getVal (serializeFields e) k = (getVal e k).map serializeVal := by
  induction e with
  | nil => simp [serializeFields, getVal]
  | cons p rest ih =>
      rcases hk : p.1 == k with _ | _ <;>
        simp [serializeFields, getVal_cons, hk, ih] at *

/-- The serialization pass preserves the key list. -/
theorem keysOf_serializeFields (e : Event) :
    keysOf (serializeFields e) = keysOf e := by
  simp [keysOf, serializeFields, List.map_map]

/-- When the `input` field does not hold a dict, step 1 of
`normalize_event` does nothing. -/
theorem promote_of_input_not_mapping (e : Event)
    (h : inputIsMapping e = false) : promote e = e := by
  unfold promote
  unfold inputIsMapping at h
  cases hv : getVal e "input" with
  | none => simp
  | some v => cases v <;> simp_all

/-- `serializeVal` never returns a raw container. -/
theorem isScalar_serializeVal (v : JVal) : isScalar (serializeVal v) = true := by
  cases v <;> simp [serializeVal, isScalar]

/-- An all-scalar event's `input` field is not a dict. -/
theorem inputIsMapping_eq_false_of_all_scalar (e : Event)
    (h : e.all (fun p => isScalar p.2) = true) : inputIsMapping e = false := by
  unfold inputIsMapping
  cases hv : getVal e "input" with
  | none => rfl
  | some v =>
      cases v with
      | obj m =>
          exfalso
          unfold getVal at hv
          rcases Option.map_eq_some'.mp hv with ⟨q, hq, hq2⟩
          have hqe : q ∈ e := List.mem_of_find?_eq_some hq
          have hsc := List.all_eq_true.mp h q hqe
          rw [hq2] at hsc
          simp [isScalar] at hsc
      | _ => rfl

/-- C4: for an event whose `input` field holds a mapping `m`,
`normalize_event` sets the record's `input`, `output`, `expected` and
`metadata` fields to `m`'s same-named sub-fields — an absent sub-field
becoming an explicit null — each passed once through the
serialization step (so a nested sub-field is serialized, never expanded
again), replacing whatever those four fields held before; the original
nested `input` mapping itself is gone, its key now holding the promoted
sub-field. -/
theorem normalize_event_promotion (e m : Event)
    (h : getVal e "input" = some (JVal.obj m)) :
    getVal (normalize_event e) "input" = some (serializeVal (getNull m "input")) ∧
    getVal (normalize_event e) "output" = some (serializeVal (getNull m "output")) ∧
    getVal (normalize_event e) "expected" =
      some (serializeVal (getNull m "expected")) ∧
    getVal (normalize_event e) "metadata" =
      some (serializeVal (getNull m "metadata")) := by
  have hp : promote e =
      setKey (setKey (setKey (setKey (removeKey e "input") "input"
        (getNull m "input")) "output" (getNull m "output")) "expected"
        (getNull m "expected")) "metadata" (getNull m "metadata") := by
    unfold promote
    rw [h]
  refine ⟨?_, ?_, ?_, ?_⟩ <;>
    simp [normalize_event, getVal_serializeFields, hp, getVal_setKey_self,
      getVal_setKey_ne]

/-- Witness for C4 at the spec's test event
`{"input": {"input": "a", "output": "b", "expected": "c",
"metadata": {"k": 1}}}`. -/
theorem normalize_event_promotion_witness :
    getVal sampleNested "input" = some (JVal.obj sampleInner) ∧
    getVal (normalize_event sampleNested) "input" = some (JVal.str "a") ∧
    getVal (normalize_event sampleNested) "output" = some (JVal.str "b") ∧
    getVal (normalize_event sampleNested) "expected" = some (JVal.str "c") ∧
    getVal (normalize_event sampleNested) "metadata" =
      some (JVal.str "\x7b\"k\": 1\x7d") :=
  ⟨rfl,
   (normalize_event_promotion sampleNested sampleInner rfl).1.trans rfl,
   (normalize_event_promotion sampleNested sampleInner rfl).2.1.trans rfl,
   (normalize_event_promotion sampleNested sampleInner rfl).2.2.1.trans rfl,
   (normalize_event_promotion sampleNested sampleInner rfl).2.2.2.trans rfl⟩

/-- C5: every value of a normalized record is a scalar — never a raw dict
or list; a field whose value is a scalar after the promotion step passes
through unchanged, and a field whose value is still a dict or list becomes
the string of its deterministic serialization. -/
theorem normalize_event_flat_values (e : Event) :
    (∀ p ∈ normalize_event e, isScalar p.2 = true) ∧
    (∀ p ∈ promote e, isScalar p.2 = true → p ∈ normalize_event e) ∧
    (∀ p ∈ promote e, isScalar p.2 = false →
        (p.1, JVal.str (dumps p.2)) ∈ normalize_event e) := by
  refine ⟨?_, ?_, ?_⟩
  · intro p hp
    rcases List.mem_map.mp hp with ⟨q, -, rfl⟩
    exact isScalar_serializeVal q.2
  · intro p hp hs
    have hm : (p.1, serializeVal p.2) ∈ normalize_event e :=
      List.mem_map_of_mem _ hp
    simpa [serializeVal, hs] using hm
  · intro p hp hs
    have hm : (p.1, serializeVal p.2) ∈ normalize_event e :=
      List.mem_map_of_mem _ hp
    simpa [serializeVal, hs] using hm

/-- Witness for C5 at `{"a": 1, "b": []}`: the scalar field survives
unchanged, the list field becomes its serialization `"[]"`. -/
theorem normalize_event_flat_values_witness :
    (("a", JVal.num 1) ∈ promote sampleMixed ∧
     isScalar (JVal.num 1) = true ∧
     ("a", JVal.num 1) ∈ normalize_event sampleMixed) ∧
    (("b", JVal.arr []) ∈ promote sampleMixed ∧
     isScalar (JVal.arr []) = false ∧
     ("b", JVal.str "[]") ∈ normalize_event sampleMixed) :=
  ⟨⟨List.mem_cons_self _ _, rfl,
    (normalize_event_flat_values sampleMixed).2.1 ("a", JVal.num 1)
      (List.mem_cons_self _ _) rfl⟩,
   ⟨List.mem_cons_of_mem _ (List.mem_cons_self _ _), rfl,
    (normalize_event_flat_values sampleMixed).2.2 ("b", JVal.arr [])
      (List.mem_cons_of_mem _ (List.mem_cons_self _ _)) rfl⟩⟩

/-- C10: an event whose top-level values are all scalars normalizes to
itself unchanged: the promotion step does not fire and the serialization
step maps every field to itself. -/
theorem normalize_event_scalar_identity (e : Event)
    (h : e.all (fun p => isScalar p.2) = true) : normalize_event e = e := by
  have hpro : promote e = e :=
    promote_of_input_not_mapping e (inputIsMapping_eq_false_of_all_scalar e h)
  have hpt : ∀ p ∈ e,
      (fun p : String × JVal => (p.1, serializeVal p.2)) p = id p := by
    intro p hp
    have hs := List.all_eq_true.mp h p hp
    simp only [serializeVal, hs, if_pos, id]
  have hser : serializeFields e = e :=
    (List.map_congr_left hpt).trans (List.map_id e)
  rw [normalize_event, hpro, hser]

/-- Witness for C10 at the all-scalar event `{"id": "x", "n": 3}`. -/
theorem normalize_event_scalar_identity_witness :
    sampleScalar.all (fun p => isScalar p.2) = true ∧
    normalize_event sampleScalar = sampleScalar :=
  ⟨rfl, normalize_event_scalar_identity sampleScalar rfl⟩

/-- Counterexample to C8's frame clause: `normalize_event` returns the
very dict object it was passed after popping and reassigning its entries
in place, so the caller's mapping after the call is the returned record —
here `{"a": "[]"}` — which differs from the mapping that was passed,
`{"a": []}`.  The function therefore does not leave the event mapping it
was given unmodified. -/
theorem normalize_event_mutates_argument :
    normalize_event [("a", JVal.arr [])] = [("a", JVal.str "[]")] ∧
    [("a", JVal.str "[]")] ≠ ([("a", JVal.arr [])] : Event) :=
  ⟨rfl, fun h => by
    have h2 := (List.cons.inj h).1
    have h3 := congrArg Prod.snd h2
    exact JVal.noConfusion h3⟩

/-- C8 as amended: `normalize_event` is total and deterministic — on a
malformed event whose `input` field is absent or not a mapping it raises
nothing and invents nothing, keeping the record's field set exactly the
event's own (absent fields stay absent); but it normalizes the given
mapping in place rather than leaving it unmodified. -/
theorem normalize_event_keys_of_no_promotion (e : Event)
    (h : inputIsMapping e = false) :
    keysOf (normalize_event e) = keysOf e := by
  rw [normalize_event, promote_of_input_not_mapping e h, keysOf_serializeFields]

/-- Witness for the amended C8 at `{"x": 1}`, which has no `input`
field. -/
theorem normalize_event_keys_of_no_promotion_witness :
    inputIsMapping sampleNoInput = false ∧
    keysOf (normalize_event sampleNoInput) = keysOf sampleNoInput :=
  ⟨rfl, normalize_event_keys_of_no_promotion sampleNoInput rfl⟩

/-- Code-point lexicographic order is total. -/
theorem lexLe_total (as bs : List Char) :
    lexLe as bs = true ∨ lexLe bs as = true := by
  induction as generalizing bs with
  | nil => left; rfl
  | cons a as ih =>
      cases bs with
      | nil => right; rfl
      | cons b bs =>
          by_cases hab : a = b
          · subst hab
            rcases ih bs with h | h
            · left; simpa [lexLe] using h
            · right; simpa [lexLe] using h
          · rcases lt_or_gt_of_ne hab with h | h
            · left; simp [lexLe, hab, h]
            · right
              have hba : b ≠ a := fun hh => hab hh.symm
              simp [lexLe, hba, h]

/-- Code-point lexicographic order is transitive. -/
theorem lexLe_trans (as bs cs : List Char) (h1 : lexLe as bs = true)
    (h2 : lexLe bs cs = true) : lexLe as cs = true := by
  induction as generalizing bs cs with
  | nil => rfl
  | cons a as ih =>
      cases bs with
      | nil => simp [lexLe] at h1
      | cons b bs =>
          cases cs with
          | nil => simp [lexLe] at h2
          | cons c cs =>
              by_cases hab : a = b <;> by_cases hbc : b = c
              · subst hab; subst hbc
                simp only [lexLe, if_pos rfl] at h1 h2 ⊢
                exact ih bs cs h1 h2
              · subst hab
                have hlt : a < c := by simpa [lexLe, hbc] using h2
                simp [lexLe, ne_of_lt hlt, hlt]
              · subst hbc
                have hlt : a < b := by simpa [lexLe, hab] using h1
                simp [lexLe, hab, hlt]
              · have hlt1 : a < b := by simpa [lexLe, hab] using h1
                have hlt2 : b < c := by simpa [lexLe, hbc] using h2
                have hlt : a < c := lt_trans hlt1 hlt2
                simp [lexLe, ne_of_lt hlt, hlt]

instance : IsTotal String fun a b => strLeB a b = true :=
  ⟨fun a b => lexLe_total a.data b.data⟩

instance : IsTrans String fun a b => strLeB a b = true :=
  ⟨fun a b c => lexLe_trans a.data b.data c.data⟩

/-- `sortedStrings` sorts under the code-point order. -/
theorem sortedStrings_sorted (l : List String) :
    (sortedStrings l).Sorted fun a b => strLeB a b = true :=
  List.sorted_insertionSort _ l

/-- `sortedStrings` is a permutation: sorting loses and invents
nothing. -/
theorem sortedStrings_perm (l : List String) : (sortedStrings l).Perm l :=
  List.perm_insertionSort _ l

/-- A key the record lacks renders as the empty cell. -/
theorem renderCell_eq_empty_of_missing (e : Event) (k : String)
    (hk : k ∉ keysOf e) : renderCell e k = "" := by
  have hnone : getVal e k = none := by
    unfold getVal
    rw [List.find?_eq_none.mpr]
    · rfl
    · intro x hx hxk
      exact hk (by
        have : x.1 = k := by simpa using hxk
        exact this ▸ List.mem_map_of_mem _ hx)
  simp [renderCell, hnone]

/-- C6: for a non-empty batch, `write_to_csv` writes the object's file
whose header is sorted (code-point lexicographically), duplicate-free, and
holds exactly the union of the field names of the normalized records; one
row is rendered per record, each against the full header, and a record
missing a header key renders that cell empty rather than omitting it. -/
theorem write_to_csv_header_union (events : List Event)
    (directory objectId : String) (hne : events ≠ []) :
    (write_to_csv events directory objectId).file =
      some ("braintrust_data/" ++ directory ++ "/" ++ objectId ++ ".csv",
            csvTable events) ∧
    (csvTable events).1.Sorted (fun a b => strLeB a b = true) ∧
    (csvTable events).1.Nodup ∧
    (∀ k, k ∈ (csvTable events).1 ↔
        ∃ e ∈ events, k ∈ keysOf (normalize_event e)) ∧
    (csvTable events).2.length = events.length ∧
    (∀ pr ∈ (csvTable events).2.zip (events.map normalize_event),
        pr.1 = (csvTable events).1.map (renderCell pr.2)) ∧
    (∀ e k, k ∉ keysOf e → renderCell e k = "") := by
  have hcsv : csvTable events =
      (csvFieldnames (events.map normalize_event),
       (events.map normalize_event).map fun e =>
         (csvFieldnames (events.map normalize_event)).map (renderCell e)) := rfl
  have hempty : events.isEmpty = false := by
    cases events with
    | nil => exact absurd rfl hne
    | cons e es => rfl
  refine ⟨?_, ?_, ?_, ?_, ?_, ?_, renderCell_eq_empty_of_missing⟩
  · simp [write_to_csv, hempty]
  · rw [hcsv]
    exact sortedStrings_sorted _
  · rw [hcsv]
    exact (sortedStrings_perm _).nodup_iff.mpr (List.nodup_dedup _)
  · intro k
    rw [hcsv]
    simp only [csvFieldnames, (sortedStrings_perm _).mem_iff, List.mem_dedup,
      List.mem_flatMap, List.mem_map]
    constructor
    · rintro ⟨a, ⟨e, he, rfl⟩, hk⟩
      exact ⟨e, he, hk⟩
    · rintro ⟨e, he, hk⟩
      exact ⟨normalize_event e, ⟨e, he, rfl⟩, hk⟩
  · rw [hcsv]
    simp
  · intro pr hpr
    rw [hcsv] at hpr
    have hzip : ((events.map normalize_event).map fun e =>
          (csvFieldnames (events.map normalize_event)).map (renderCell e)).zip
            (events.map normalize_event) =
        (events.map normalize_event).map fun e =>
          ((csvFieldnames (events.map normalize_event)).map (renderCell e), e) := by
      have hz := List.zip_map'
        (fun e => (csvFieldnames (events.map normalize_event)).map (renderCell e))
        id (events.map normalize_event)
      simpa using hz
    simp only [hzip] at hpr
    rcases List.mem_map.mp hpr with ⟨a, -, rfl⟩
    rw [hcsv]

/-- Witness for C6 at the spec's batch `[{"a": 1}, {"b": 2}]`: the file is
written with header `["a", "b"]`, the first row's `b` cell empty and the
second row's `a` cell empty. -/
theorem write_to_csv_header_union_witness :
    sampleRecords ≠ [] ∧
    (write_to_csv sampleRecords "experiment" "obj1").file =
      some ("braintrust_data/experiment/obj1.csv", csvTable sampleRecords) ∧
    (csvTable sampleRecords).1 = ["a", "b"] ∧
    (csvTable sampleRecords).2 = [["1", ""], ["", "2"]] :=
  ⟨List.cons_ne_nil _ _,
   (write_to_csv_header_union sampleRecords "experiment" "obj1"
      (List.cons_ne_nil _ _)).1,
   rfl, rfl⟩

/-- Counterexample to C9's frame clause: a `write_to_csv` call with an
empty records list does not change nothing observable — both
`os.makedirs(..., exist_ok=True)` calls run before the empty check
(`src/main.py:171-173`), so the call still ensures (creating if absent)
the two output directories. -/
theorem write_to_csv_empty_ensures_dirs :
    (write_to_csv [] "experiment" "obj1").dirsEnsured =
      ["braintrust_data", "braintrust_data/experiment"] ∧
    (write_to_csv [] "experiment" "obj1").dirsEnsured ≠ [] :=
  ⟨rfl, by simp [write_to_csv]⟩

/-- C9 as amended: a `write_to_csv` call with an empty records list
returns normally and not with an error, writes no output file (logging a
no-events warning, though it still ensures the two output directories
exist), and the orchestrator signals the zero-event case through its typed
outcome: an object whose fetch returns no events is recorded in
`objects_without_events` and nothing else — no write, no failure record,
no error log. -/
theorem write_to_csv_empty_no_file (directory objectId : String) :
    (write_to_csv [] directory objectId).file = none ∧
    (write_to_csv [] directory objectId).warnedNoEvents = true ∧
    (write_to_csv [] directory objectId).dirsEnsured =
      ["braintrust_data", "braintrust_data/" ++ directory] ∧
    (∀ env endpoint st logs obj,
        env.fetch obj.id = Except.ok ([] : List Event) →
        processObject env endpoint (st, logs) obj =
          ({ st with objectsWithoutEvents :=
              st.objectsWithoutEvents ++ [obj.id] }, logs)) := by
  refine ⟨rfl, rfl, rfl, ?_⟩
  intro env endpoint st logs obj h
  simp [processObject, h]

/-- Witness for the amended C9: the zero-event object `e2` is recorded as
a no-events object with no file written. -/
theorem write_to_csv_empty_no_file_witness :
    envNoEvents.fetch "e2" = Except.ok ([] : List Event) ∧
    (write_to_csv [] "experiment" "e2").file = none ∧
    processObject envNoEvents "experiment" (initRunState, []) ⟨"e2"⟩ =
      ({ initRunState with objectsWithoutEvents := ["e2"] }, []) :=
  ⟨rfl, (write_to_csv_empty_no_file "experiment" "e2").1,
   ((write_to_csv_empty_no_file "experiment" "e2").2.2.2 envNoEvents
      "experiment" initRunState [] ⟨"e2"⟩ rfl).trans rfl⟩

/-- One loop iteration only appends to the accumulators and the log. -/
theorem processObject_append (env : Env) (endpoint : String) (st : RunState)
    (logs : List LogMsg) (obj : BTObject) :
    ∃ dE dF dN dW dL,
      processObject env endpoint (st, logs) obj =
        ({ failedEndpoints := st.failedEndpoints ++ dE
           failedObjects := st.failedObjects ++ dF
           objectsWithoutEvents := st.objectsWithoutEvents ++ dN
           writes := st.writes ++ dW }, logs ++ dL) := by
  rcases hf : env.fetch obj.id with e | events
  · refine ⟨[endpoint], [obj.id], [], [],
      [.errorProcessing endpoint obj.id e.msg], ?_⟩
    cases st
    simp [processObject, hf]
  · cases hne : events.isEmpty
    · rcases hw : env.writeFs obj.id with e | u
      · refine ⟨[endpoint], [obj.id], [], [],
          [.errorProcessing endpoint obj.id e.msg], ?_⟩
        cases st
        simp [processObject, hf, hne, hw]
      · refine ⟨[], [], [], (write_to_csv events endpoint obj.id).file.toList,
          [], ?_⟩
        cases st
        simp [processObject, hf, hne, hw]
    · refine ⟨[], [], [obj.id], [], [], ?_⟩
      cases st
      simp [processObject, hf, hne]

/-- The whole loop only appends to the accumulators and the log. -/
theorem foldl_processObject_append (env : Env) (endpoint : String)
    (objs : List BTObject) :
    ∀ (st : RunState) (logs : List LogMsg),
    ∃ dE dF dN dW dL,
      objs.foldl (processObject env endpoint) (st, logs) =
        ({ failedEndpoints := st.failedEndpoints ++ dE
           failedObjects := st.failedObjects ++ dF
           objectsWithoutEvents := st.objectsWithoutEvents ++ dN
           writes := st.writes ++ dW }, logs ++ dL) := by
  induction objs with
  | nil =>
      intro st logs
      exact ⟨[], [], [], [], [], by cases st; simp⟩
  | cons o os ih =>
      intro st logs
      rcases processObject_append env endpoint st logs o with
        ⟨e1, f1, n1, w1, l1, h1⟩
      rcases ih { failedEndpoints := st.failedEndpoints ++ e1
                  failedObjects := st.failedObjects ++ f1
                  objectsWithoutEvents := st.objectsWithoutEvents ++ n1
                  writes := st.writes ++ w1 } (logs ++ l1) with
        ⟨e2, f2, n2, w2, l2, h2⟩
      refine ⟨e1 ++ e2, f1 ++ f2, n1 ++ n2, w1 ++ w2, l1 ++ l2, ?_⟩
      rw [List.foldl_cons, h1, h2]
      simp [List.append_assoc]

/-- An object whose event fetch raises ends up in the loop's failure
accumulator with its error logged, wherever it sits in the listing. -/
theorem fold_failed_of_fetch_error (env : Env) (endpoint : String)
    (objs : List BTObject) :
    ∀ (st : RunState) (logs : List LogMsg) (obj : BTObject), obj ∈ objs →
    ∀ e, env.fetch obj.id = Except.error e →
      obj.id ∈ (objs.foldl (processObject env endpoint) (st, logs)).1.failedObjects ∧
      LogMsg.errorProcessing endpoint obj.id e.msg ∈
        (objs.foldl (processObject env endpoint) (st, logs)).2 := by
  induction objs with
  | nil =>
      intro st logs obj h
      exact absurd h (List.not_mem_nil _)
  | cons o os ih =>
      intro st logs obj hmem e he
      rcases List.mem_cons.mp hmem with rfl | hin
      · have hstep : processObject env endpoint (st, logs) obj =
            ({ st with failedEndpoints := st.failedEndpoints ++ [endpoint]
                       failedObjects := st.failedObjects ++ [obj.id] },
             logs ++ [.errorProcessing endpoint obj.id e.msg]) := by
          simp [processObject, he]
        rw [List.foldl_cons, hstep]
        rcases foldl_processObject_append env endpoint os _ _ with
          ⟨dE, dF, dN, dW, dL, happ⟩
        rw [happ]
        constructor
        · simp
        · simp
      · exact ih _ _ obj hin e he

/-- An object whose events arrive but whose write raises ends up in the
loop's failure accumulator with its error logged. -/
theorem fold_failed_of_write_error (env : Env) (endpoint : String)
    (objs : List BTObject) :
    ∀ (st : RunState) (logs : List LogMsg) (obj : BTObject), obj ∈ objs →
    ∀ events, env.fetch obj.id = Except.ok events → events ≠ [] →
    ∀ e, env.writeFs obj.id = Except.error e →
      obj.id ∈ (objs.foldl (processObject env endpoint) (st, logs)).1.failedObjects ∧
      LogMsg.errorProcessing endpoint obj.id e.msg ∈
        (objs.foldl (processObject env endpoint) (st, logs)).2 := by
  induction objs with
  | nil =>
      intro st logs obj h
      exact absurd h (List.not_mem_nil _)
  | cons o os ih =>
      intro st logs obj hmem events hfe hne e hwe
      rcases List.mem_cons.mp hmem with rfl | hin
      · have hempty : events.isEmpty = false := by
          simp [List.isEmpty_eq_false, hne]
        have hstep : processObject env endpoint (st, logs) obj =
            ({ st with failedEndpoints := st.failedEndpoints ++ [endpoint]
                       failedObjects := st.failedObjects ++ [obj.id] },
             logs ++ [.errorProcessing endpoint obj.id e.msg]) := by
          simp [processObject, hfe, hempty, hwe]
        rw [List.foldl_cons, hstep]
        rcases foldl_processObject_append env endpoint os _ _ with
          ⟨dE, dF, dN, dW, dL, happ⟩
        rw [happ]
        constructor
        · simp
        · simp
      · exact ih _ _ obj hin events hfe hne e hwe

/-- An object whose fetch yields events and whose write succeeds has its
table among the files the loop writes, whatever happens to the others. -/
theorem fold_writes_of_success (env : Env) (endpoint : String)
    (objs : List BTObject) :
    ∀ (st : RunState) (logs : List LogMsg) (obj : BTObject), obj ∈ objs →
    ∀ events, env.fetch obj.id = Except.ok events → events ≠ [] →
    env.writeFs obj.id = Except.ok () →
      ("braintrust_data/" ++ endpoint ++ "/" ++ obj.id ++ ".csv",
        csvTable events) ∈
        (objs.foldl (processObject env endpoint) (st, logs)).1.writes := by
  induction objs with
  | nil =>
      intro st logs obj h
      exact absurd h (List.not_mem_nil _)
  | cons o os ih =>
      intro st logs obj hmem events hfe hne hwe
      rcases List.mem_cons.mp hmem with rfl | hin
      · have hempty : events.isEmpty = false := by
          simp [List.isEmpty_eq_false, hne]
        have hfile : (write_to_csv events endpoint obj.id).file =
            some ("braintrust_data/" ++ endpoint ++ "/" ++ obj.id ++ ".csv",
                  csvTable events) := by
          simp [write_to_csv, hempty]
        have hstep : processObject env endpoint (st, logs) obj =
            ({ st with writes := st.writes ++
                [("braintrust_data/" ++ endpoint ++ "/" ++ obj.id ++ ".csv",
                  csvTable events)] }, logs) := by
          simp [processObject, hfe, hempty, hwe, hfile]
        rw [List.foldl_cons, hstep]
        rcases foldl_processObject_append env endpoint os _ _ with
          ⟨dE, dF, dN, dW, dL, happ⟩
        rw [happ]
        simp
      · exact ih _ _ obj hin events hfe hne hwe

/-- C1: a listing failure aborts the endpoint-kind run at once — the run
re-raises with no object processed, nothing recorded, nothing written.
When the listing succeeds the run always returns normally; any object
whose fetch raises, or whose events arrive but whose write raises, is
caught, logged with its id, and recorded in the failure set; and every
object whose fetch and write both succeed has its table written, whatever
happened to its siblings. -/
theorem download_data_fault_isolation (env : Env) (endpoint : String) :
    (∀ e, env.listing = Except.error e →
        download_data env endpoint =
          { ok := false, state := initRunState
            logs := [.errorDownloading endpoint e.msg,
                     .failedObjectsOnFatal endpoint []] }) ∧
    (∀ objs, env.listing = Except.ok objs →
      (download_data env endpoint).ok = true ∧
      (∀ obj ∈ objs, ∀ e, env.fetch obj.id = Except.error e →
          obj.id ∈ (download_data env endpoint).state.failedObjects ∧
          LogMsg.errorProcessing endpoint obj.id e.msg ∈
            (download_data env endpoint).logs) ∧
      (∀ obj ∈ objs, ∀ events, env.fetch obj.id = Except.ok events →
          events ≠ [] → ∀ e, env.writeFs obj.id = Except.error e →
          obj.id ∈ (download_data env endpoint).state.failedObjects ∧
          LogMsg.errorProcessing endpoint obj.id e.msg ∈
            (download_data env endpoint).logs) ∧
      (∀ obj ∈ objs, ∀ events, env.fetch obj.id = Except.ok events →
          events ≠ [] → env.writeFs obj.id = Except.ok () →
          ("braintrust_data/" ++ endpoint ++ "/" ++ obj.id ++ ".csv",
            csvTable events) ∈ (download_data env endpoint).state.writes)) := by
  constructor
  · intro e he
    simp [download_data, he]
  · intro objs ho
    have hdd : download_data env endpoint =
        { ok := true
          state := (objs.foldl (processObject env endpoint) (initRunState, [])).1
          logs := (objs.foldl (processObject env endpoint) (initRunState, [])).2
            ++ runSummaryLogs endpoint objs.length
              (objs.foldl (processObject env endpoint) (initRunState, [])).1 } := by
      simp [download_data, ho]
    refine ⟨by rw [hdd], ?_, ?_, ?_⟩
    · intro obj hmem e he
      have h := fold_failed_of_fetch_error env endpoint objs initRunState []
        obj hmem e he
      rw [hdd]
      exact ⟨h.1, List.mem_append_left _ h.2⟩
    · intro obj hmem events hfe hne e hwe
      have h := fold_failed_of_write_error env endpoint objs initRunState []
        obj hmem events hfe hne e hwe
      rw [hdd]
      exact ⟨h.1, List.mem_append_left _ h.2⟩
    · intro obj hmem events hfe hne hwe
      have h := fold_writes_of_success env endpoint objs initRunState []
        obj hmem events hfe hne hwe
      rw [hdd]
      exact h

/-- Witness for C1 on `envMixed` (objects `X`, `Y`, `Z`; `X`'s fetch
raises, `Y` has one event, `Z` has none): `X` is recorded and logged as
failed, `Y`'s table is still written, and the run returns normally; and on
`envListingFails` the run aborts with nothing attempted. -/
theorem download_data_fault_isolation_witness :
    (envMixed.listing =
        Except.ok [BTObject.mk "X", BTObject.mk "Y", BTObject.mk "Z"] ∧
      BTObject.mk "X" ∈ [BTObject.mk "X", BTObject.mk "Y", BTObject.mk "Z"] ∧
      envMixed.fetch "X" = Except.error ⟨"fetch failed"⟩ ∧
      BTObject.mk "Y" ∈ [BTObject.mk "X", BTObject.mk "Y", BTObject.mk "Z"] ∧
      envMixed.fetch "Y" = Except.ok [[("id", JVal.str "e1")]] ∧
      ([[("id", JVal.str "e1")]] : List Event) ≠ [] ∧
      envMixed.writeFs "Y" = Except.ok () ∧
      (download_data envMixed "experiment").ok = true ∧
      "X" ∈ (download_data envMixed "experiment").state.failedObjects ∧
      LogMsg.errorProcessing "experiment" "X" "fetch failed" ∈
        (download_data envMixed "experiment").logs ∧
      ("braintrust_data/experiment/Y.csv",
        csvTable [[("id", JVal.str "e1")]]) ∈
        (download_data envMixed "experiment").state.writes) ∧
    (envListingFails.listing = Except.error ⟨"boom"⟩ ∧
      download_data envListingFails "experiment" =
        { ok := false, state := initRunState
          logs := [.errorDownloading "experiment" "boom",
                   .failedObjectsOnFatal "experiment" []] }) :=
  ⟨⟨rfl, by decide, rfl, by decide, rfl, List.cons_ne_nil _ _, rfl,
    ((download_data_fault_isolation envMixed "experiment").2
      [⟨"X"⟩, ⟨"Y"⟩, ⟨"Z"⟩] rfl).1,
    (((download_data_fault_isolation envMixed "experiment").2
      [⟨"X"⟩, ⟨"Y"⟩, ⟨"Z"⟩] rfl).2.1 ⟨"X"⟩ (by decide) ⟨"fetch failed"⟩ rfl).1,
    (((download_data_fault_isolation envMixed "experiment").2
      [⟨"X"⟩, ⟨"Y"⟩, ⟨"Z"⟩] rfl).2.1 ⟨"X"⟩ (by decide) ⟨"fetch failed"⟩ rfl).2,
    ((download_data_fault_isolation envMixed "experiment").2
      [⟨"X"⟩, ⟨"Y"⟩, ⟨"Z"⟩] rfl).2.2.2 ⟨"Y"⟩ (by decide) [[("id", JVal.str "e1")]]
      rfl (List.cons_ne_nil _ _) rfl⟩,
   ⟨rfl,
    (download_data_fault_isolation envListingFails "experiment").1 ⟨"boom"⟩ rfl⟩⟩

/-- C7 behaviour at a failing run (object `objX` whose fetch raises): the
end-of-run summary consists of the completion line, the total count, the
zero-event count, and a final error line carrying the *endpoint name* once
per failed object — the failed object identifiers collected in
`failed_objects` appear nowhere in the summary (they are only logged at
failure time, during the loop). -/
theorem download_data_summary_omits_failed_ids :
    download_data envFetchFails "experiment" =
      { ok := true
        state := { failedEndpoints := ["experiment"], failedObjects := ["objX"]
                   objectsWithoutEvents := [], writes := [] }
        logs := [.errorProcessing "experiment" "objX" "boom",
                 .processingComplete "experiment", .totalProcessed 1,
                 .noEventsCount 0, .failedEndpointsSummary ["experiment"]] } ∧
    runSummaryLogs "experiment" 1
        { failedEndpoints := ["experiment"], failedObjects := ["objX"]
          objectsWithoutEvents := [], writes := [] } =
      [.processingComplete "experiment", .totalProcessed 1, .noEventsCount 0,
       .failedEndpointsSummary ["experiment"]] :=
  ⟨rfl, rfl⟩
